import Mathlib

/-!
# PlayBotPage: the live game session controller

A shallow embedding of `src/frontend/src/PlayBotPage.jsx`.

* The component's `useState` cells become the fields of `State`.
* `chess.js` is a third-party library, so the rules engine is a parameter
  (`RulesEngine`): the controller is verified for every engine.
* Event handlers are functions from the state of the latest render to an
  `Outcome`: how the handler ended, the state after its batched setters,
  whether `setGame` installed a fresh `Chess` object, and the `setTimeout`
  calls it made.
* The three `useEffect` hooks are replayed by `commit` after every handler,
  comparing their dependency arrays between the previous and the new render.
* Pending timeouts and unresolved `fetch` calls are explicit in `Sys`; the
  environment (user, timers, network) acts through `Event`s.
* JavaScript runs every handler and every continuation to completion, so the
  states in which the next event can arrive are the ones after a handler and
  the effects it caused; these are the states of `Sys`.
-/

namespace PlayBot

/-! ## The rules engine (chess.js) as a parameter -/

/-- Side to move as chess.js reports it: the strings "w" and "b". -/
inductive Color where
  | w
  | b
deriving DecidableEq, Repr

/-- Argument of chess.js `move`: the object built by `onDrop`
(`from`, `to`, `promotion`) or the string taken from `data.move`. -/
inductive MoveArg where
  | coords (src dst promotion : String)
  | text (s : String)
deriving DecidableEq, Repr

/-- The operations of chess.js that PlayBotPage.jsx calls, in the camel-case
interface of version 1 that the source uses (`isGameOver`, `isCheckmate`,
`isDraw`, ...). `move` returns the mutated object together with `san` of the
move made; for an illegal move it throws an error ("Invalid move: ...") and
never returns `null`, so `none` stands for the throw, and the tests of lines
39 and 114 never see a falsy value. `load` is `new Chess(fen)`; the
controller only ever passes it a string produced by `fen`. -/
structure RulesEngine where
  Pos : Type
  newChess : Pos
  load : String → Pos
  fen : Pos → String
  turn : Pos → Color
  move : Pos → MoveArg → Option (Pos × String)
  isGameOver : Pos → Bool
  isCheckmate : Pos → Bool
  isDraw : Pos → Bool
  isStalemate : Pos → Bool
  isThreefoldRepetition : Pos → Bool
  isInsufficientMaterial : Pos → Bool

/-! ## Component state -/

/-- Values passed to `setPlayerColor`: the strings "white" and "black". -/
inductive PlayerColor where
  | white
  | black
deriving DecidableEq, Repr

/-- The expression `playerColor[0]`, compared with `game.turn()`. -/
def PlayerColor.first : PlayerColor → Color
  | .white => .w
  | .black => .b

/-- The object `difficultyLevels` (lines 6-11) as a key/value table. -/
def difficultyLevels : List (String × Int) :=
  [("easy", 800), ("medium", 1200), ("hard", 1700), ("expert", 2200)]

/-- The expression `difficultyLevels[label]`; `none` stands for `undefined`. -/
def difficultyLookup (label : String) : Option Int :=
  difficultyLevels.lookup label

/-- The attribute `min="100"` of the rating slider (line 167). -/
def sliderMin : Int := 100

/-- The attribute `max="3000"` of the rating slider (line 168). -/
def sliderMax : Int := 3000

/-- The `useState` cells of `PlayBotPage` (lines 14-21). `elo` is `none` when
the cell holds `undefined`. -/
structure State (E : RulesEngine) where
  game : E.Pos
  fen : String
  moves : List String
  gameStarted : Bool
  playerColor : PlayerColor
  difficulty : String
  elo : Option Int
  status : String

/-- Arguments of one call `getBotMove(currentFen, currentElo)`: the body of the
request posted to `/api/bot-move`. -/
structure BotCall where
  currentFen : String
  currentElo : Option Int
deriving DecidableEq, Repr

/-- How a handler ended: it returned a Boolean to the board (only `onDrop`
has return statements), it ran to its end without a return value, or an
exception left it uncaught. -/
inductive Completion where
  | returned (value : Bool)
  | finished
  | threw
deriving DecidableEq, Repr

/-- What a handler did: how it ended, the state after its setters, whether
`setGame` was called (a new object, so every dependency array containing
`game` changes), and the `setTimeout` calls it made. -/
structure Outcome (E : RulesEngine) where
  ret : Completion
  st : State E
  gameSet : Bool
  timeouts : List BotCall

/-- Initial values of the state cells (lines 14-21). -/
def initialState (E : RulesEngine) : State E :=
  { game := E.newChess
    fen := E.fen E.newChess
    moves := []
    gameStarted := false
    playerColor := .white
    difficulty := "medium"
    elo := difficultyLookup "medium"
    status := "" }

/-! ## Handlers -/

/-- The function `handleStartGame` (lines 86-94). -/
def handleStartGame {E : RulesEngine} (s : State E) : Outcome E :=
  let newGame := E.newChess
  { ret := .finished
    st := { s with
      game := newGame
      fen := E.fen newGame
      moves := []
      gameStarted := true
      status := "Game started. It's White's turn." }
    gameSet := true
    timeouts := [] }

/-- The function `onDrop` (lines 96-125). When `gameCopy.move` throws (line
108) nothing has been set yet and the function has no `try`, so the exception
leaves `onDrop`; line 114 is not reached. -/
def onDrop {E : RulesEngine} (s : State E) (sourceSquare targetSquare : String) : Outcome E :=
  if !s.gameStarted || E.turn s.game != s.playerColor.first then
    { ret := .returned false, st := s, gameSet := false, timeouts := [] }
  else
    let gameCopy := E.load s.fen
    match E.move gameCopy (.coords sourceSquare targetSquare "q") with
    | none => { ret := .threw, st := s, gameSet := false, timeouts := [] }
    | some (gameCopy, san) =>
      { ret := .returned true
        st := { s with game := gameCopy, fen := E.fen gameCopy, moves := s.moves ++ [san] }
        gameSet := true
        timeouts :=
          if !E.isGameOver gameCopy then [{ currentFen := E.fen gameCopy, currentElo := s.elo }]
          else [] }

/-- How a posted request ends. `networkError` is every path into the `catch`
block other than a non-ok status (rejected fetch, unparsable body); `json`
carries the `move` and `error` fields of the parsed body, `none` for an
absent field. -/
inductive Response where
  | networkError
  | notOk
  | json (move error : Option String)
deriving DecidableEq, Repr

/-- JavaScript truthiness of an optional string field: present and non-empty. -/
def truthy : Option String → Bool
  | some v => v != ""
  | none => false

/-- The continuation of `getBotMove` after `await fetch(...)` (lines 31-51),
run on the state current at the time the request resolves. When
`gameCopy.move` throws (line 38) the throw is inside the `try`, so the
`catch` of lines 48-51 runs and sets the failure status. -/
def getBotMove {E : RulesEngine} (s : State E) (call : BotCall) (r : Response) : Outcome E :=
  match r with
  | .networkError | .notOk =>
    { ret := .finished, st := { s with status := "Failed to get bot's move." }
      gameSet := false, timeouts := [] }
  | .json move error =>
    if truthy move then
      let gameCopy := E.load call.currentFen
      match E.move gameCopy (.text (move.getD "")) with
      | some (gameCopy, san) =>
        { ret := .finished
          st := { s with game := gameCopy, fen := E.fen gameCopy, moves := s.moves ++ [san] }
          gameSet := true, timeouts := [] }
      | none =>
        { ret := .finished, st := { s with status := "Failed to get bot's move." }
          gameSet := false, timeouts := [] }
    else if truthy error then
      { ret := .finished, st := { s with status := "Error: " ++ error.getD "" }
        gameSet := false, timeouts := [] }
    else { ret := .finished, st := s, gameSet := false, timeouts := [] }

/-! ## Effects -/

/-- Body of the status effect (lines 67-83): the string it passes to
`setStatus`, or `none` when no branch calls `setStatus`. -/
def statusEffect (E : RulesEngine) (g : E.Pos) : Option String :=
  if E.isGameOver g then
    if E.isCheckmate g then
      some ("Checkmate! " ++ (if E.turn g = .w then "Black" else "White") ++ " wins.")
    else if E.isDraw g then some "Draw!"
    else if E.isStalemate g then some "Stalemate!"
    else if E.isThreefoldRepetition g then some "Draw by threefold repetition!"
    else if E.isInsufficientMaterial g then some "Draw by insufficient material!"
    else none
  else some ("It's " ++ (if E.turn g = .w then "White" else "Black") ++ "'s turn.")

/-- Body of the bot-turn effect (lines 54-60): the `getBotMove` call whose
timeout it sets, or `none` when its condition is false. -/
def botTurnEffect {E : RulesEngine} (s : State E) : Option BotCall :=
  if s.gameStarted && E.turn s.game != s.playerColor.first then
    some { currentFen := s.fen, currentElo := s.elo }
  else none

/-- The component together with its pending asynchronous work.
`dropTimers` are the timeouts set by `onDrop` (line 121; nothing clears
them), `effectTimer` is the timeout of the bot-turn effect (line 57; cleared
by the cleanup of line 58 when the effect re-runs), `inflight` are the
`getBotMove` calls whose `fetch` has not resolved yet. -/
structure Sys (E : RulesEngine) where
  st : State E
  dropTimers : List BotCall
  effectTimer : Option BotCall
  inflight : List BotCall

/-- Render after a handler and run the effects whose dependencies changed.
The difficulty effect (lines 62-65, dependency `difficulty`) sets `elo`; the
status effect (dependencies `fen`, `game`) sets `status`; the bot-turn effect
(dependencies `gameStarted`, `game`, `playerColor`, `fen`, `elo`) first runs
its cleanup and then its body. -/
def commit {E : RulesEngine} (sys : Sys E) (o : Outcome E) : Sys E :=
  let prev := sys.st
  let s1 : State E :=
    if o.st.difficulty != prev.difficulty then
      { o.st with elo := difficultyLookup o.st.difficulty }
    else o.st
  let s2 : State E :=
    if o.gameSet || s1.fen != prev.fen then
      match statusEffect E s1.game with
      | some t => { s1 with status := t }
      | none => s1
    else s1
  let botDeps : Bool :=
    o.gameSet || s1.gameStarted != prev.gameStarted || s1.playerColor != prev.playerColor
      || s1.fen != prev.fen || s1.elo != prev.elo
  { st := s2
    dropTimers := sys.dropTimers ++ o.timeouts
    effectTimer := if botDeps then botTurnEffect s2 else sys.effectTimer
    inflight := sys.inflight }

/-- The component right after its first render and first run of the effects. -/
def mount (E : RulesEngine) : Sys E :=
  let s0 := initialState E
  let s1 : State E := { s0 with elo := difficultyLookup s0.difficulty }
  let s2 : State E :=
    match statusEffect E s1.game with
    | some t => { s1 with status := t }
    | none => s1
  { st := s2, dropTimers := [], effectTimer := botTurnEffect s2, inflight := [] }

/-! ## Events -/

/-- What the environment can do to the component: the user's clicks and
drops, a timeout expiring, a posted request resolving. -/
inductive Event where
  | setPlayerColor (c : PlayerColor)
  | setDifficulty (label : String)
  | setElo (value : Int)
  | startGame
  | drop (sourceSquare targetSquare : String)
  | dropTimerFires (i : Nat)
  | effectTimerFires
  | resolve (i : Nat) (r : Response)
deriving DecidableEq, Repr

/-- One event. The colour buttons, difficulty buttons and the slider are
`disabled={gameStarted}`; the difficulty buttons exist only for the keys of
`difficultyLevels`; the slider is an input of type range with `min="100"`
and `max="3000"`, so the handler of line 170 is only ever called with a
value from `sliderMin` to `sliderMax`. An event that the user interface
cannot produce leaves the component as it is. A fired timeout calls
`getBotMove`, which posts the request; a resolution runs the rest of
`getBotMove` on the current state. -/
def dispatch {E : RulesEngine} (sys : Sys E) : Event → Sys E
  | .setPlayerColor c =>
    if sys.st.gameStarted then sys
    else commit sys { ret := .finished, st := { sys.st with playerColor := c }, gameSet := false, timeouts := [] }
  | .setDifficulty label =>
    if sys.st.gameStarted || !(difficultyLevels.map Prod.fst).contains label then sys
    else commit sys { ret := .finished, st := { sys.st with difficulty := label }, gameSet := false, timeouts := [] }
  | .setElo value =>
    if sys.st.gameStarted || value < sliderMin || sliderMax < value then sys
    else commit sys { ret := .finished, st := { sys.st with elo := some value }, gameSet := false, timeouts := [] }
  | .startGame => commit sys (handleStartGame sys.st)
  | .drop a b => commit sys (onDrop sys.st a b)
  | .dropTimerFires i =>
    match sys.dropTimers[i]? with
    | some c => { sys with dropTimers := sys.dropTimers.eraseIdx i, inflight := sys.inflight ++ [c] }
    | none => sys
  | .effectTimerFires =>
    match sys.effectTimer with
    | some c => { sys with effectTimer := none, inflight := sys.inflight ++ [c] }
    | none => sys
  | .resolve i r =>
    match sys.inflight[i]? with
    | some c => commit { sys with inflight := sys.inflight.eraseIdx i } (getBotMove sys.st c r)
    | none => sys

/-- The events that can write the rating: a difficulty button and the slider. -/
def Event.changesRating : Event → Bool
  | .setDifficulty _ => true
  | .setElo _ => true
  | _ => false

/-- A sequence of events, oldest first. -/
def run {E : RulesEngine} (sys : Sys E) (es : List Event) : Sys E :=
  es.foldl dispatch sys

/-- States the component can be in: the mounted component and whatever any
event leads to. -/
inductive Reachable (E : RulesEngine) : Sys E → Prop where
  | mounted : Reachable E (mount E)
  | step (sys : Sys E) (e : Event) : Reachable E sys → Reachable E (dispatch sys e)

/-- The guard of `onDrop` (line 102) lets a drop through. -/
def awaitingHuman {E : RulesEngine} (s : State E) : Bool :=
  s.gameStarted && E.turn s.game == s.playerColor.first

/-- The session is started and the side to move is not the human's. -/
def awaitingOpponent {E : RulesEngine} (s : State E) : Bool :=
  s.gameStarted && E.turn s.game != s.playerColor.first

/-! ## A scripted rules engine

For concrete runs the engine parameter is instantiated by a finite fragment of
chess: positions are FEN strings, and a script lists the legal moves that the
run uses, each with the position it leads to. For a move that is not listed
`move` throws. -/

/-- One legal chess move: the FEN before it, its squares, its SAN and the FEN
after it. -/
structure Ply where
  before : String
  src : String
  dst : String
  san : String
  after : String
deriving DecidableEq, Repr

/-- A fragment of chess: some legal moves, and the listed positions that are
checkmate or have insufficient material. -/
structure Script where
  plies : List Ply
  checkmates : List String
  insufficient : List String

/-- Active colour of a FEN record: the field after the first blank. -/
def activeColour : List Char → Color
  | [] => .w
  | c :: cs =>
    if c = Char.ofNat 32 then
      match cs with
      | d :: _ => if d = Char.ofNat 98 then .b else .w
      | [] => .w
    else activeColour cs

/-- The scripted row matching a move request in a position. -/
def Script.find (sc : Script) (pos : String) (m : MoveArg) : Option Ply :=
  sc.plies.find? fun p =>
    p.before == pos &&
      match m with
      | .coords a b _ => p.src == a && p.dst == b
      | .text t => p.san == t

/-- The rules engine of a script. A `Chess` object built from a FEN has no
history, so it is identified with its FEN and never reports a repetition. -/
def scripted (sc : Script) : RulesEngine where
  Pos := String
  newChess := "rnbqkbnr/pppppppp/8/8/8/8/PPPPPPPP/RNBQKBNR w KQkq - 0 1"
  load := id
  fen := id
  turn := fun p => activeColour p.data
  move := fun p m => (sc.find p m).map fun ply => (ply.after, ply.san)
  isCheckmate := fun p => sc.checkmates.contains p
  isStalemate := fun _ => false
  isThreefoldRepetition := fun _ => false
  isInsufficientMaterial := fun p => sc.insufficient.contains p
  isDraw := fun p => sc.insufficient.contains p
  isGameOver := fun p => sc.checkmates.contains p || sc.insufficient.contains p

/-- The fragment of chess used by the concrete runs below: the knight
development 1.Nf3 Nf6 2.Ng5, the miniature 1.e3 Nc6 2.Bc4 Nb8 3.Qf3 Nc6
4.Qxf7 mate, and a king move with bare kings on the board. -/
def fragment : Script where
  plies :=
    [ { before := "rnbqkbnr/pppppppp/8/8/8/8/PPPPPPPP/RNBQKBNR w KQkq - 0 1"
        src := "g1", dst := "f3", san := "Nf3"
        after := "rnbqkbnr/pppppppp/8/8/8/5N2/PPPPPPPP/RNBQKB1R b KQkq - 1 1" },
      { before := "rnbqkbnr/pppppppp/8/8/8/5N2/PPPPPPPP/RNBQKB1R b KQkq - 1 1"
        src := "g8", dst := "f6", san := "Nf6"
        after := "rnbqkb1r/pppppppp/5n2/8/8/5N2/PPPPPPPP/RNBQKB1R w KQkq - 2 2" },
      { before := "rnbqkb1r/pppppppp/5n2/8/8/5N2/PPPPPPPP/RNBQKB1R w KQkq - 2 2"
        src := "f3", dst := "g5", san := "Ng5"
        after := "rnbqkb1r/pppppppp/5n2/6N1/8/8/PPPPPPPP/RNBQKB1R b KQkq - 3 2" },
      { before := "rnbqkbnr/pppppppp/8/8/8/8/PPPPPPPP/RNBQKBNR w KQkq - 0 1"
        src := "e2", dst := "e3", san := "e3"
        after := "rnbqkbnr/pppppppp/8/8/8/4P3/PPPP1PPP/RNBQKBNR b KQkq - 0 1" },
      { before := "rnbqkbnr/pppppppp/8/8/8/4P3/PPPP1PPP/RNBQKBNR b KQkq - 0 1"
        src := "b8", dst := "c6", san := "Nc6"
        after := "r1bqkbnr/pppppppp/2n5/8/8/4P3/PPPP1PPP/RNBQKBNR w KQkq - 1 2" },
      { before := "r1bqkbnr/pppppppp/2n5/8/8/4P3/PPPP1PPP/RNBQKBNR w KQkq - 1 2"
        src := "f1", dst := "c4", san := "Bc4"
        after := "r1bqkbnr/pppppppp/2n5/8/2B5/4P3/PPPP1PPP/RNBQK1NR b KQkq - 2 2" },
      { before := "r1bqkbnr/pppppppp/2n5/8/2B5/4P3/PPPP1PPP/RNBQK1NR b KQkq - 2 2"
        src := "c6", dst := "b8", san := "Nb8"
        after := "rnbqkbnr/pppppppp/8/8/2B5/4P3/PPPP1PPP/RNBQK1NR w KQkq - 3 3" },
      { before := "rnbqkbnr/pppppppp/8/8/2B5/4P3/PPPP1PPP/RNBQK1NR w KQkq - 3 3"
        src := "d1", dst := "f3", san := "Qf3"
        after := "rnbqkbnr/pppppppp/8/8/2B5/4PQ2/PPPP1PPP/RNB1K1NR b KQkq - 4 3" },
      { before := "rnbqkbnr/pppppppp/8/8/2B5/4PQ2/PPPP1PPP/RNB1K1NR b KQkq - 4 3"
        src := "b8", dst := "c6", san := "Nc6"
        after := "r1bqkbnr/pppppppp/2n5/8/2B5/4PQ2/PPPP1PPP/RNB1K1NR w KQkq - 5 4" },
      { before := "r1bqkbnr/pppppppp/2n5/8/2B5/4PQ2/PPPP1PPP/RNB1K1NR w KQkq - 5 4"
        src := "f3", dst := "f7", san := "Qxf7#"
        after := "r1bqkbnr/pppppQpp/2n5/8/2B5/4P3/PPPP1PPP/RNB1K1NR b KQkq - 0 4" },
      { before := "8/8/8/4k3/8/8/8/4K3 w - - 0 60"
        src := "e1", dst := "e2", san := "Ke2"
        after := "8/8/8/4k3/8/8/4K3/8 b - - 1 60" } ]
  checkmates := ["r1bqkbnr/pppppQpp/2n5/8/2B5/4P3/PPPP1PPP/RNB1K1NR b KQkq - 0 4"]
  insufficient := ["8/8/8/4k3/8/8/8/4K3 w - - 0 60", "8/8/8/4k3/8/8/4K3/8 b - - 1 60"]

/-- The scripted engine of `fragment`. -/
def chessFragment : RulesEngine := scripted fragment

/-! ## Concrete sessions on the chess fragment -/

/-- The human, playing white, has pressed Start Game. -/
def started : Sys chessFragment :=
  run (mount chessFragment) [.startGame]

/-- The human has answered Start Game with 1.Nf3; both timeouts are pending. -/
def afterKnightMove : Sys chessFragment :=
  run (mount chessFragment) [.startGame, .drop "g1" "f3"]

/-- After 1.Nf3 the timeout set by `onDrop` has expired: one request is
posted and unresolved. -/
def requestPosted : Sys chessFragment :=
  run (mount chessFragment) [.startGame, .drop "g1" "f3", .dropTimerFires 0]

/-- The human plays white; 1.e3 Nc6 2.Bc4 Nb8 3.Qf3 Nc6 has been played, each
reply fetched through the timeout of `onDrop`. White is to move. -/
def beforeMate : Sys chessFragment :=
  run (mount chessFragment)
    [.startGame,
     .drop "e2" "e3", .dropTimerFires 0, .resolve 0 (.json (some "Nc6") none),
     .drop "f1" "c4", .dropTimerFires 0, .resolve 0 (.json (some "Nb8") none),
     .drop "d1" "f3", .dropTimerFires 0, .resolve 0 (.json (some "Nc6") none)]

/-- The human plays black. In a first session 1.Nf3 Nf6 was played and the
request for the second white move was posted; then Restart Game was pressed
while that request was unresolved. -/
def restartedAsBlack : Sys chessFragment :=
  run (mount chessFragment)
    [.setPlayerColor .black, .startGame, .effectTimerFires,
     .resolve 0 (.json (some "Nf3") none),
     .drop "g8" "f6", .dropTimerFires 0, .startGame]

/-- A started session of a human playing white in which only the two kings
are left and white is to move; `log` is the move log so far. -/
def bareKings (log : List String) : Sys chessFragment where
  st :=
    { game := "8/8/8/4k3/8/8/8/4K3 w - - 0 60"
      fen := "8/8/8/4k3/8/8/8/4K3 w - - 0 60"
      moves := log
      gameStarted := true
      playerColor := .white
      difficulty := "medium"
      elo := some 1200
      status := "Draw!" }
  dropTimers := []
  effectTimer := none
  inflight := []

/-! ## The rating controls -/

/-- The clamping to the supported range that section 4.1 of the specification
describes for a numeric override. It is the specification's function, written
from its words to be compared with what the handler of line 170 stores (the
`setElo` branch of `dispatch`); the source has no such function, the range is
declared on the slider. -/
def clampToSupportedRange (value : Int) : Int :=
  if value < sliderMin then sliderMin
  else if sliderMax < value then sliderMax
  else value

/-- The mounted component after the slider was dragged to 2500; the selected
difficulty is still "medium". -/
def sliderOverride : Sys chessFragment :=
  run (mount chessFragment) [.setElo 2500]

/-! # Theorems -/

/-! ## The frame of `commit` -/

/-- A handler that set nothing leaves the component as it was: no dependency
array changes, so no effect runs. -/
theorem commit_unchanged {E : RulesEngine} (sys : Sys E) (r : Completion) :
    commit sys { ret := r, st := sys.st, gameSet := false, timeouts := [] } = sys := by
  cases sys
  simp [commit]

/-- The effects only ever write `elo` and `status`. -/
theorem commit_frame {E : RulesEngine} (sys : Sys E) (o : Outcome E) :
    (commit sys o).st.game = o.st.game ∧ (commit sys o).st.fen = o.st.fen ∧
      (commit sys o).st.moves = o.st.moves ∧
      (commit sys o).st.gameStarted = o.st.gameStarted ∧
      (commit sys o).st.playerColor = o.st.playerColor ∧
      (commit sys o).inflight = sys.inflight := by
  simp only [commit]
  split_ifs <;> (try split) <;> simp

/-- The guard of line 102 rejects the drop. -/
theorem onDrop_blocked {E : RulesEngine} (s : State E) (a b : String)
    (h : s.gameStarted = false ∨ E.turn s.game ≠ s.playerColor.first) :
    onDrop s a b = { ret := .returned false, st := s, gameSet := false, timeouts := [] } := by
  unfold onDrop
  rcases h with h | h
  · simp [h]
  · simp [h]

/-- Past the guard of line 102, a move that the rules engine rejects makes
`gameCopy.move` throw (line 108): `onDrop` sets nothing and returns nothing. -/
theorem onDrop_illegal {E : RulesEngine} (s : State E) (a b : String)
    (hstarted : s.gameStarted = true) (hturn : E.turn s.game = s.playerColor.first)
    (h : E.move (E.load s.fen) (.coords a b "q") = none) :
    onDrop s a b = { ret := .threw, st := s, gameSet := false, timeouts := [] } := by
  unfold onDrop
  simp [hstarted, hturn, h]

/-! ## Drops that are not accepted -/

/-- C1, the code at the failing input: right after Start Game the human, who
plays white, drags the e2 pawn to e5, which the rules engine rejects. The
state (game, fen, move log and the rest) is unchanged, `onDrop` sets no
timeout and the component with its timers and requests is the same; but the
rejection is the exception thrown by `gameCopy.move` at line 108, so line 114
is not reached and `onDrop` does not return false. -/
theorem onDrop_illegal_move_throws :
    started.st.gameStarted = true ∧
      chessFragment.turn started.st.game = started.st.playerColor.first ∧
      (chessFragment.move (chessFragment.load started.st.fen)
        (.coords "e2" "e5" "q")).isNone = true ∧
      (onDrop started.st "e2" "e5").ret = Completion.threw ∧
      (onDrop started.st "e2" "e5").ret ≠ Completion.returned false ∧
      (onDrop started.st "e2" "e5").st.fen = started.st.fen ∧
      (onDrop started.st "e2" "e5").st.moves = started.st.moves ∧
      (onDrop started.st "e2" "e5").st.status = started.st.status ∧
      (onDrop started.st "e2" "e5").st = started.st ∧
      (onDrop started.st "e2" "e5").timeouts = [] ∧
      dispatch started (.drop "e2" "e5") = started := by
  have h := onDrop_illegal started.st "e2" "e5" (by decide) (by decide) rfl
  refine ⟨by decide, by decide, by decide, by decide, by decide, by decide, by decide,
    by decide, by rw [h], by decide, ?_⟩
  show commit started (onDrop started.st "e2" "e5") = started
  rw [h]
  exact commit_unchanged started Completion.threw

/-- C2: when the game has not been started, or the rules engine reports a
side to move other than the human's colour, every drop returns false with no
side effect: the state (game, fen, move log, status and the rest) is
unchanged, `onDrop` sets no timeout, and the component with its pending
timers and requests is the same. -/
theorem onDrop_not_awaiting_human {E : RulesEngine} (sys : Sys E) (a b : String)
    (h : sys.st.gameStarted = false ∨ E.turn sys.st.game ≠ sys.st.playerColor.first) :
    (onDrop sys.st a b).ret = Completion.returned false ∧ (onDrop sys.st a b).st = sys.st ∧
      (onDrop sys.st a b).timeouts = [] ∧ dispatch sys (.drop a b) = sys := by
  have hb := onDrop_blocked sys.st a b h
  refine ⟨by rw [hb], by rw [hb], by rw [hb], ?_⟩
  show commit sys (onDrop sys.st a b) = sys
  rw [hb]
  exact commit_unchanged sys (Completion.returned false)

/-- Witness for C2: after 1.Nf3 it is black's turn and the human, who plays
white, drags the black knight from g8 to f6. -/
theorem onDrop_not_awaiting_human_witness :
    (afterKnightMove.st.gameStarted = false ∨
        chessFragment.turn afterKnightMove.st.game ≠ afterKnightMove.st.playerColor.first) ∧
      (onDrop afterKnightMove.st "g8" "f6").ret = Completion.returned false ∧
      (onDrop afterKnightMove.st "g8" "f6").st = afterKnightMove.st ∧
      (onDrop afterKnightMove.st "g8" "f6").timeouts = [] ∧
      dispatch afterKnightMove (.drop "g8" "f6") = afterKnightMove :=
  ⟨Or.inr (by decide),
    onDrop_not_awaiting_human afterKnightMove "g8" "f6" (Or.inr (by decide))⟩

/-! ## Drops in a finished game -/

/-- C3, the code at the failing input: with only the two kings left the rules
engine reports game over (a draw by insufficient material) and it is the
human's turn; dropping the king from e1 to e2 is accepted, replaces the
position and appends "Ke2" to the move log, whatever the log was. The guard
of line 102 never asks `isGameOver`. -/
theorem onDrop_accepted_after_draw (log : List String) :
    chessFragment.isGameOver (bareKings log).st.game = true ∧
      chessFragment.isInsufficientMaterial (bareKings log).st.game = true ∧
      awaitingHuman (bareKings log).st = true ∧
      (onDrop (bareKings log).st "e1" "e2").ret = Completion.returned true ∧
      (onDrop (bareKings log).st "e1" "e2").st.fen = "8/8/8/4k3/8/8/4K3/8 b - - 1 60" ∧
      (onDrop (bareKings log).st "e1" "e2").st.moves = log ++ ["Ke2"] ∧
      (dispatch (bareKings log) (.drop "e1" "e2")).st.moves = log ++ ["Ke2"] :=
  ⟨rfl, rfl, rfl, rfl, rfl, rfl, rfl⟩

/-! ## Start and restart -/

/-- C4: from every prior component state and for either colour, Start Game
yields a started session on the initial position with an empty move log, the
colour selection kept. With white to move in the initial position, a human
playing white is awaited and the bot-turn effect sets no timeout; for a
human playing black the opponent is awaited and the bot-turn effect sets the
timeout of a request carrying the initial position and the current rating. -/
theorem handleStartGame_fresh_session {E : RulesEngine} (sys : Sys E)
    (hwhite : E.turn E.newChess = Color.w) :
    (dispatch sys .startGame).st.gameStarted = true ∧
      (dispatch sys .startGame).st.game = E.newChess ∧
      (dispatch sys .startGame).st.fen = E.fen E.newChess ∧
      (dispatch sys .startGame).st.moves = [] ∧
      (dispatch sys .startGame).st.playerColor = sys.st.playerColor ∧
      (sys.st.playerColor = .white →
        awaitingHuman (dispatch sys .startGame).st = true ∧
          (dispatch sys .startGame).effectTimer = none) ∧
      (sys.st.playerColor = .black →
        awaitingOpponent (dispatch sys .startGame).st = true ∧
          (dispatch sys .startGame).effectTimer =
            some { currentFen := E.fen E.newChess, currentElo := sys.st.elo }) := by
  have hf := commit_frame sys (handleStartGame sys.st)
  obtain ⟨hg, hfen, hm, hs, hc, -⟩ := hf
  have helo : (dispatch sys .startGame).st.elo = sys.st.elo := by
    show (commit sys (handleStartGame sys.st)).st.elo = sys.st.elo
    simp only [commit, handleStartGame]
    split_ifs <;> (try split) <;> simp_all
  have htimer : (dispatch sys .startGame).effectTimer =
      botTurnEffect (dispatch sys .startGame).st := by
    show (commit sys (handleStartGame sys.st)).effectTimer =
      botTurnEffect (commit sys (handleStartGame sys.st)).st
    simp [commit, handleStartGame]
  have hg' : (dispatch sys .startGame).st.game = E.newChess := hg
  have hs' : (dispatch sys .startGame).st.gameStarted = true := hs
  have hc' : (dispatch sys .startGame).st.playerColor = sys.st.playerColor := hc
  have hfen' : (dispatch sys .startGame).st.fen = E.fen E.newChess := hfen
  refine ⟨hs', hg', hfen', hm, hc', ?_, ?_⟩
  · intro hcol
    rw [htimer]
    simp [awaitingHuman, botTurnEffect, hg', hs', hc', hcol, hwhite, PlayerColor.first]
  · intro hcol
    rw [htimer]
    simp [awaitingOpponent, botTurnEffect, hg', hs', hc', hcol, hwhite, PlayerColor.first,
      hfen', helo]

/-- Witness for C4: Restart Game pressed by a human playing black while a
request of the previous session is unresolved. -/
theorem handleStartGame_fresh_session_witness :
    chessFragment.turn chessFragment.newChess = Color.w ∧
      restartedAsBlack.st.playerColor = .black ∧
      (dispatch restartedAsBlack .startGame).st.moves = [] ∧
      (dispatch restartedAsBlack .startGame).effectTimer =
        some { currentFen := chessFragment.fen chessFragment.newChess
               currentElo := restartedAsBlack.st.elo } :=
  ⟨by decide, by decide,
    (handleStartGame_fresh_session restartedAsBlack (by decide)).2.2.2.1,
    ((handleStartGame_fresh_session restartedAsBlack (by decide)).2.2.2.2.2.2 (by decide)).2⟩

/-! ## Requests after an accepted human move -/

/-- C5, the code at the failing input: the human (white, difficulty medium,
no timer pending) answers Start Game with 1.Nf3, which is accepted and does
not end the game. One move record is appended, but two timeouts are set for
the same opponent turn, one by `onDrop` (line 121) and one by the bot-turn
effect (line 57), each carrying the new position and rating 1200; when both
expire, two requests are unresolved at the same time. -/
theorem accepted_move_posts_two_requests :
    started.st.difficulty = "medium" ∧ started.dropTimers = [] ∧
      started.effectTimer = none ∧ started.inflight = [] ∧
      (onDrop started.st "g1" "f3").ret = Completion.returned true ∧
      (dispatch started (.drop "g1" "f3")).st.moves = ["Nf3"] ∧
      chessFragment.isGameOver (dispatch started (.drop "g1" "f3")).st.game = false ∧
      (dispatch started (.drop "g1" "f3")).dropTimers =
        [{ currentFen := "rnbqkbnr/pppppppp/8/8/8/5N2/PPPPPPPP/RNBQKB1R b KQkq - 1 1"
           currentElo := some 1200 }] ∧
      (dispatch started (.drop "g1" "f3")).effectTimer =
        some { currentFen := "rnbqkbnr/pppppppp/8/8/8/5N2/PPPPPPPP/RNBQKB1R b KQkq - 1 1"
               currentElo := some 1200 } ∧
      (run started [.drop "g1" "f3", .dropTimerFires 0, .effectTimerFires]).inflight =
        [{ currentFen := "rnbqkbnr/pppppppp/8/8/8/5N2/PPPPPPPP/RNBQKB1R b KQkq - 1 1"
           currentElo := some 1200 },
         { currentFen := "rnbqkbnr/pppppppp/8/8/8/5N2/PPPPPPPP/RNBQKB1R b KQkq - 1 1"
           currentElo := some 1200 }] := by
  decide

/-- C6, the code at the failing input: after 1.e3 Nc6 2.Bc4 Nb8 3.Qf3 Nc6 the
human plays 4.Qxf7 mate. The move is accepted, the position is checkmate, the
status reads "Checkmate! White wins." and `onDrop` sets no timeout; but the
bot-turn effect sets one, because it is black's turn, and when it expires a
request carrying the checkmated position is posted. -/
theorem checkmate_still_posts_request :
    awaitingHuman beforeMate.st = true ∧ beforeMate.dropTimers = [] ∧
      beforeMate.effectTimer = none ∧ beforeMate.inflight = [] ∧
      (onDrop beforeMate.st "f3" "f7").ret = Completion.returned true ∧
      (onDrop beforeMate.st "f3" "f7").timeouts = [] ∧
      chessFragment.isCheckmate (dispatch beforeMate (.drop "f3" "f7")).st.game = true ∧
      chessFragment.isGameOver (dispatch beforeMate (.drop "f3" "f7")).st.game = true ∧
      (dispatch beforeMate (.drop "f3" "f7")).st.status = "Checkmate! White wins." ∧
      (dispatch beforeMate (.drop "f3" "f7")).effectTimer =
        some { currentFen := "r1bqkbnr/pppppQpp/2n5/8/2B5/4P3/PPPP1PPP/RNB1K1NR b KQkq - 0 4"
               currentElo := some 1200 } ∧
      (run beforeMate [.drop "f3" "f7", .effectTimerFires]).inflight =
        [{ currentFen := "r1bqkbnr/pppppQpp/2n5/8/2B5/4P3/PPPP1PPP/RNB1K1NR b KQkq - 0 4"
           currentElo := some 1200 }] := by
  decide

/-! ## Resolutions of a request -/

/-- C8, the code at the failing input: the request posted after 1.Nf3 resolves
with status ok and a body that has neither a `move` nor an `error` field.
Position and move log stay as they were, but so does the status, which still
reads "It's Black's turn."; a non-ok status at the same point does set the
failure message. -/
theorem empty_response_leaves_status :
    requestPosted.inflight =
        [{ currentFen := "rnbqkbnr/pppppppp/8/8/8/5N2/PPPPPPPP/RNBQKB1R b KQkq - 1 1"
           currentElo := some 1200 }] ∧
      awaitingOpponent requestPosted.st = true ∧
      requestPosted.st.status = "It's Black's turn." ∧
      (dispatch requestPosted (.resolve 0 (.json none none))).st.fen = requestPosted.st.fen ∧
      (dispatch requestPosted (.resolve 0 (.json none none))).st.moves = requestPosted.st.moves ∧
      (dispatch requestPosted (.resolve 0 (.json none none))).st.status = "It's Black's turn." ∧
      (dispatch requestPosted (.resolve 0 .notOk)).st.status = "Failed to get bot's move." := by
  decide

/-- A resolution of an unresolved request runs the rest of `getBotMove` on
the current state and then the effects. -/
theorem dispatch_resolve {E : RulesEngine} (sys : Sys E) (i : Nat) (call : BotCall)
    (r : Response) (h : sys.inflight[i]? = some call) :
    dispatch sys (.resolve i r) =
      commit { sys with inflight := sys.inflight.eraseIdx i } (getBotMove sys.st call r) := by
  simp [dispatch, h]

/-- An absent field is falsy. -/
theorem truthy_none : truthy none = false := rfl

/-- An empty string is falsy. -/
theorem truthy_empty : truthy (some "") = false := by decide

/-- A truthy `move` field that the engine accepts on the position carried by
the request replaces the position and extends the log (lines 37-42). -/
theorem getBotMove_legal {E : RulesEngine} (s : State E) (call : BotCall) (m : String)
    (err : Option String) (g : E.Pos) (san : String) (hm : m ≠ "")
    (h : E.move (E.load call.currentFen) (.text m) = some (g, san)) :
    getBotMove s call (.json (some m) err) =
      { ret := .finished
        st := { s with game := g, fen := E.fen g, moves := s.moves ++ [san] }
        gameSet := true, timeouts := [] } := by
  simp [getBotMove, truthy, hm, h]

/-- A truthy `move` field that the engine rejects on the position carried by
the request makes `gameCopy.move` throw (line 38); the `catch` sets the
failure status and nothing else (lines 48-51). -/
theorem getBotMove_illegal {E : RulesEngine} (s : State E) (call : BotCall) (m : String)
    (err : Option String) (hm : m ≠ "")
    (h : E.move (E.load call.currentFen) (.text m) = none) :
    getBotMove s call (.json (some m) err) =
      { ret := .finished, st := { s with status := "Failed to get bot's move." }
        gameSet := false, timeouts := [] } := by
  simp [getBotMove, truthy, hm, h]

/-- A handler that set only the status leaves everything else as it was: no
effect depends on `status`. -/
theorem commit_status {E : RulesEngine} (sys : Sys E) (r : Completion) (t : String) :
    commit sys { ret := r, st := { sys.st with status := t }, gameSet := false, timeouts := [] } =
      { sys with st := { sys.st with status := t } } := by
  cases sys
  simp [commit]

/-- Unless the response carries a move that the engine accepts on the
position carried by the request, `getBotMove` touches neither the position
nor the move log. -/
theorem getBotMove_no_move {E : RulesEngine} (s : State E) (call : BotCall) (r : Response)
    (h : ∀ m err, r = .json (some m) err → m ≠ "" →
      E.move (E.load call.currentFen) (.text m) = none) :
    (getBotMove s call r).st.game = s.game ∧ (getBotMove s call r).st.fen = s.fen ∧
      (getBotMove s call r).st.moves = s.moves := by
  cases r with
  | networkError => simp [getBotMove]
  | notOk => simp [getBotMove]
  | json move err =>
    cases move with
    | none =>
      simp only [getBotMove, truthy_none, Bool.false_eq_true, if_false]
      split_ifs <;> simp
    | some m =>
      by_cases hm : m = ""
      · subst hm
        simp only [getBotMove, truthy_empty, Bool.false_eq_true, if_false]
        split_ifs <;> simp
      · rw [getBotMove_illegal s call m err hm (h m err rfl hm)]
        simp

/-- C7 as stated is false: a request is unresolved when Restart Game is
pressed, and it later resolves with "Nf6", legal for the position after
1.Nf3 that it was posted for. The resolution is not discarded: the new
session's position, move log and status are not what they were right after
the restart (the log holds "Nf6"). -/
theorem stale_resolution_applied_after_restart :
    requestPosted.inflight[0]? =
        some { currentFen := "rnbqkbnr/pppppppp/8/8/8/5N2/PPPPPPPP/RNBQKB1R b KQkq - 1 1"
               currentElo := some 1200 } ∧
      (chessFragment.move
          (chessFragment.load "rnbqkbnr/pppppppp/8/8/8/5N2/PPPPPPPP/RNBQKB1R b KQkq - 1 1")
          (.text "Nf6")).isSome = true ∧
      (dispatch requestPosted .startGame).st.moves = [] ∧
      (run requestPosted [.startGame, .resolve 0 (.json (some "Nf6") none)]).st.moves =
        ["Nf6"] ∧
      ¬ ((run requestPosted [.startGame, .resolve 0 (.json (some "Nf6") none)]).st.game =
            (dispatch requestPosted .startGame).st.game ∧
          (run requestPosted [.startGame, .resolve 0 (.json (some "Nf6") none)]).st.fen =
            (dispatch requestPosted .startGame).st.fen ∧
          (run requestPosted [.startGame, .resolve 0 (.json (some "Nf6") none)]).st.moves =
            (dispatch requestPosted .startGame).st.moves ∧
          (run requestPosted [.startGame, .resolve 0 (.json (some "Nf6") none)]).st.status =
            (dispatch requestPosted .startGame).st.status) :=
  ⟨by decide, by decide, by decide, by decide, fun h => absurd h.2.2.1 (by decide)⟩

/-- A resolution, in whatever state it arrives: a move that the engine accepts
on the position carried by the request replaces the position and is appended
to the log; anything else leaves the position and the log as they are. -/
theorem resolve_effect {E : RulesEngine} (sys : Sys E) (j : Nat) (call : BotCall)
    (r : Response) (hflight : sys.inflight[j]? = some call) :
    (∀ m err g san, r = .json (some m) err → m ≠ "" →
        E.move (E.load call.currentFen) (.text m) = some (g, san) →
        (dispatch sys (.resolve j r)).st.game = g ∧
          (dispatch sys (.resolve j r)).st.fen = E.fen g ∧
          (dispatch sys (.resolve j r)).st.moves = sys.st.moves ++ [san]) ∧
      ((∀ m err, r = .json (some m) err → m ≠ "" →
          E.move (E.load call.currentFen) (.text m) = none) →
        (dispatch sys (.resolve j r)).st.game = sys.st.game ∧
          (dispatch sys (.resolve j r)).st.fen = sys.st.fen ∧
          (dispatch sys (.resolve j r)).st.moves = sys.st.moves) := by
  rw [dispatch_resolve sys j call r hflight]
  have hf := commit_frame { sys with inflight := sys.inflight.eraseIdx j }
    (getBotMove sys.st call r)
  rw [hf.1, hf.2.1, hf.2.2.1]
  constructor
  · intro m err g san hr hm hlegal
    subst hr
    rw [getBotMove_legal _ call m err g san hm hlegal]
    exact ⟨rfl, rfl, rfl⟩
  · intro hnone
    exact getBotMove_no_move sys.st call r hnone

/-- C7 amended: when Restart Game is pressed while a request is unresolved,
the request stays unresolved and the new session starts with an empty log.
Whatever events follow, when the request later resolves it is processed
against the position it was posted for: if it carries a move legal for that
position, the new session's position becomes the result of that move and
the move is appended to the new session's move log; if it carries no such
move, position and move log are exactly what they were right before the
resolution (right after the restart when nothing happened in between). -/
theorem restart_keeps_unresolved_request {E : RulesEngine} (sys : Sys E) (i : Nat)
    (call : BotCall) (hflight : sys.inflight[i]? = some call)
    (es : List Event) (j : Nat) (r : Response)
    (hstill : (run (dispatch sys .startGame) es).inflight[j]? = some call) :
    (dispatch sys .startGame).inflight[i]? = some call ∧
      (dispatch sys .startGame).st.moves = [] ∧
      (∀ m err g san, r = .json (some m) err → m ≠ "" →
        E.move (E.load call.currentFen) (.text m) = some (g, san) →
        (dispatch (run (dispatch sys .startGame) es) (.resolve j r)).st.game = g ∧
          (dispatch (run (dispatch sys .startGame) es) (.resolve j r)).st.fen = E.fen g ∧
          (dispatch (run (dispatch sys .startGame) es) (.resolve j r)).st.moves =
            (run (dispatch sys .startGame) es).st.moves ++ [san]) ∧
      ((∀ m err, r = .json (some m) err → m ≠ "" →
          E.move (E.load call.currentFen) (.text m) = none) →
        (dispatch (run (dispatch sys .startGame) es) (.resolve j r)).st.game =
            (run (dispatch sys .startGame) es).st.game ∧
          (dispatch (run (dispatch sys .startGame) es) (.resolve j r)).st.fen =
            (run (dispatch sys .startGame) es).st.fen ∧
          (dispatch (run (dispatch sys .startGame) es) (.resolve j r)).st.moves =
            (run (dispatch sys .startGame) es).st.moves) := by
  have hstart := commit_frame sys (handleStartGame sys.st)
  have hkept : (dispatch sys .startGame).inflight[i]? = some call := by
    show (commit sys (handleStartGame sys.st)).inflight[i]? = some call
    rw [hstart.2.2.2.2.2]
    exact hflight
  have hmoves : (dispatch sys .startGame).st.moves = [] := hstart.2.2.1
  have hres := resolve_effect (run (dispatch sys .startGame) es) j call r hstill
  exact ⟨hkept, hmoves, hres.1, hres.2⟩

/-- Witness for C7 amended: the request posted after 1.Nf3 is unresolved when
Restart Game is pressed; the human opens the new game with 1.e3, and then the
old request resolves with "Nf6": the new log is "e3" followed by "Nf6". -/
theorem restart_keeps_unresolved_request_witness :
    requestPosted.inflight[0]? =
        some { currentFen := "rnbqkbnr/pppppppp/8/8/8/5N2/PPPPPPPP/RNBQKB1R b KQkq - 1 1"
               currentElo := some 1200 } ∧
      (run (dispatch requestPosted .startGame) [.drop "e2" "e3"]).inflight[0]? =
        some { currentFen := "rnbqkbnr/pppppppp/8/8/8/5N2/PPPPPPPP/RNBQKB1R b KQkq - 1 1"
               currentElo := some 1200 } ∧
      (run (dispatch requestPosted .startGame) [.drop "e2" "e3"]).st.moves = ["e3"] ∧
      (dispatch (run (dispatch requestPosted .startGame) [.drop "e2" "e3"])
          (.resolve 0 (.json (some "Nf6") none))).st.moves =
        (run (dispatch requestPosted .startGame) [.drop "e2" "e3"]).st.moves ++ ["Nf6"] :=
  ⟨by decide, by decide, by decide,
    ((restart_keeps_unresolved_request requestPosted 0
        { currentFen := "rnbqkbnr/pppppppp/8/8/8/5N2/PPPPPPPP/RNBQKB1R b KQkq - 1 1"
          currentElo := some 1200 }
        (by decide) [.drop "e2" "e3"] 0 (.json (some "Nf6") none) (by decide)).2.2.1
        "Nf6" none "rnbqkb1r/pppppppp/5n2/8/8/5N2/PPPPPPPP/RNBQKB1R w KQkq - 2 2" "Nf6"
        rfl (by decide) rfl).2.2⟩

/-- C9 as stated is false: the human plays black, the new session awaits the
opponent's first move on the initial position, and a request of the previous
session (posted after 1.Nf3 Nf6) is still unresolved. It resolves with "Ng5",
which the rules engine rejects against the current position; `getBotMove`
asks the engine about the position carried by the request instead, so the
move is applied: the log gains "Ng5" and the position changes. -/
theorem illegal_for_current_position_applied :
    restartedAsBlack.inflight[0]? =
        some { currentFen := "rnbqkb1r/pppppppp/5n2/8/8/5N2/PPPPPPPP/RNBQKB1R w KQkq - 2 2"
               currentElo := some 1200 } ∧
      awaitingOpponent restartedAsBlack.st = true ∧
      restartedAsBlack.st.fen = "rnbqkbnr/pppppppp/8/8/8/8/PPPPPPPP/RNBQKBNR w KQkq - 0 1" ∧
      restartedAsBlack.st.moves = [] ∧
      (chessFragment.move (chessFragment.load restartedAsBlack.st.fen) (.text "Ng5")).isNone
        = true ∧
      (dispatch restartedAsBlack (.resolve 0 (.json (some "Ng5") none))).st.moves = ["Ng5"] ∧
      (dispatch restartedAsBlack (.resolve 0 (.json (some "Ng5") none))).st.fen =
        "rnbqkb1r/pppppppp/5n2/6N1/8/8/PPPPPPPP/RNBQKB1R b KQkq - 3 2" ∧
      awaitingOpponent (dispatch restartedAsBlack (.resolve 0 (.json (some "Ng5") none))).st
        = false := by
  decide

/-- C9 amended: a request that resolves with a move which the rules engine
rejects against the position the request was posted for (the fen it carries)
is discarded: no move record is appended and the position (game and fen) is
the same as before the resolution, so a session that awaited the opponent's
move still awaits it. The pending timers are untouched and the status reads
"Failed to get bot's move.", set by the `catch` of `getBotMove`. -/
theorem getBotMove_illegal_move_discarded {E : RulesEngine} (sys : Sys E) (i : Nat)
    (call : BotCall) (m : String) (err : Option String)
    (hflight : sys.inflight[i]? = some call) (hm : m ≠ "")
    (hillegal : E.move (E.load call.currentFen) (.text m) = none) :
    (getBotMove sys.st call (.json (some m) err)).st.game = sys.st.game ∧
      (getBotMove sys.st call (.json (some m) err)).st.fen = sys.st.fen ∧
      (getBotMove sys.st call (.json (some m) err)).st.moves = sys.st.moves ∧
      (dispatch sys (.resolve i (.json (some m) err))).st.game = sys.st.game ∧
      (dispatch sys (.resolve i (.json (some m) err))).st.fen = sys.st.fen ∧
      (dispatch sys (.resolve i (.json (some m) err))).st.moves = sys.st.moves ∧
      awaitingOpponent (dispatch sys (.resolve i (.json (some m) err))).st =
        awaitingOpponent sys.st ∧
      (dispatch sys (.resolve i (.json (some m) err))).dropTimers = sys.dropTimers ∧
      (dispatch sys (.resolve i (.json (some m) err))).effectTimer = sys.effectTimer ∧
      (dispatch sys (.resolve i (.json (some m) err))).st.status =
        "Failed to get bot's move." := by
  have hg := getBotMove_illegal sys.st call m err hm hillegal
  have hd : dispatch sys (.resolve i (.json (some m) err)) =
      { sys with
        st := { sys.st with status := "Failed to get bot's move." }
        inflight := sys.inflight.eraseIdx i } := by
    rw [dispatch_resolve sys i call _ hflight, hg]
    exact commit_status { sys with inflight := sys.inflight.eraseIdx i } Completion.finished _
  refine ⟨by rw [hg], by rw [hg], by rw [hg], by rw [hd], by rw [hd], by rw [hd], ?_,
    by rw [hd], by rw [hd], by rw [hd]⟩
  rw [hd]
  rfl

/-- Witness for C9 amended: the request posted after 1.Nf3 resolves with "Ke2",
which black cannot play there. -/
theorem getBotMove_illegal_move_discarded_witness :
    requestPosted.inflight[0]? =
        some { currentFen := "rnbqkbnr/pppppppp/8/8/8/5N2/PPPPPPPP/RNBQKB1R b KQkq - 1 1"
               currentElo := some 1200 } ∧
      (chessFragment.move
          (chessFragment.load "rnbqkbnr/pppppppp/8/8/8/5N2/PPPPPPPP/RNBQKB1R b KQkq - 1 1")
          (.text "Ke2")).isNone = true ∧
      (dispatch requestPosted (.resolve 0 (.json (some "Ke2") none))).st.fen =
        requestPosted.st.fen ∧
      (dispatch requestPosted (.resolve 0 (.json (some "Ke2") none))).st.moves =
        requestPosted.st.moves ∧
      awaitingOpponent (dispatch requestPosted (.resolve 0 (.json (some "Ke2") none))).st =
        awaitingOpponent requestPosted.st :=
  ⟨by decide, by decide,
    (getBotMove_illegal_move_discarded requestPosted 0
      { currentFen := "rnbqkbnr/pppppppp/8/8/8/5N2/PPPPPPPP/RNBQKB1R b KQkq - 1 1"
        currentElo := some 1200 } "Ke2" none (by decide) (by decide) rfl).2.2.2.2.1,
    (getBotMove_illegal_move_discarded requestPosted 0
      { currentFen := "rnbqkbnr/pppppppp/8/8/8/5N2/PPPPPPPP/RNBQKB1R b KQkq - 1 1"
        currentElo := some 1200 } "Ke2" none (by decide) (by decide) rfl).2.2.2.2.2.1,
    (getBotMove_illegal_move_discarded requestPosted 0
      { currentFen := "rnbqkbnr/pppppppp/8/8/8/5N2/PPPPPPPP/RNBQKB1R b KQkq - 1 1"
        currentElo := some 1200 } "Ke2" none (by decide) (by decide) rfl).2.2.2.2.2.2.1⟩

/-! ## The position snapshot -/

/-- Every handler sets `game` and `fen` together, the latter to the encoding
of the former. -/
theorem dispatch_keeps_fen {E : RulesEngine} (sys : Sys E) (e : Event)
    (h : sys.st.fen = E.fen sys.st.game) :
    (dispatch sys e).st.fen = E.fen (dispatch sys e).st.game := by
  cases e with
  | setPlayerColor c =>
    simp only [dispatch]
    split_ifs
    · exact h
    · rw [(commit_frame _ _).1, (commit_frame _ _).2.1]; exact h
  | setDifficulty label =>
    simp only [dispatch]
    split_ifs
    · exact h
    · rw [(commit_frame _ _).1, (commit_frame _ _).2.1]; exact h
  | setElo value =>
    simp only [dispatch]
    split_ifs
    · exact h
    · rw [(commit_frame _ _).1, (commit_frame _ _).2.1]; exact h
  | startGame =>
    simp only [dispatch]
    rw [(commit_frame _ _).1, (commit_frame _ _).2.1]
    rfl
  | drop a b =>
    simp only [dispatch]
    rw [(commit_frame _ _).1, (commit_frame _ _).2.1]
    unfold onDrop
    split
    · exact h
    · dsimp only
      split
      · exact h
      · rfl
  | dropTimerFires i =>
    simp only [dispatch]
    split <;> exact h
  | effectTimerFires =>
    simp only [dispatch]
    split <;> exact h
  | resolve i r =>
    simp only [dispatch]
    split
    · rw [(commit_frame _ _).1, (commit_frame _ _).2.1]
      unfold getBotMove
      split
      · exact h
      · exact h
      · split_ifs
        · dsimp only
          split
          · rfl
          · exact h
        · exact h
        · exact h
    · exact h

/-- Running events from a reachable component gives a reachable component. -/
theorem reachable_run {E : RulesEngine} (es : List Event) :
    ∀ sys : Sys E, Reachable E sys → Reachable E (run sys es) := by
  induction es with
  | nil => intro sys h; exact h
  | cons e es ih => intro sys h; exact ih (dispatch sys e) (Reachable.step sys e h)

/-- C10: in every state reachable from the mounted component by any sequence
of events (start and restart, accepted and rejected drops, timers, request
resolutions, setting changes) the held snapshot `fen` is the encoding of the
held position `game`. Hence, for an engine whose encoding preserves the side
to move, the side that the guard of `onDrop` reads from `game` is the side to
move of `new Chess(fen)`, the position the next human move is applied to. -/
theorem fen_is_encoding_of_game {E : RulesEngine} (sys : Sys E) (hreach : Reachable E sys) :
    sys.st.fen = E.fen sys.st.game ∧
      ((∀ p, E.turn (E.load (E.fen p)) = E.turn p) →
        E.turn sys.st.game = E.turn (E.load sys.st.fen)) := by
  have hinv : sys.st.fen = E.fen sys.st.game := by
    induction hreach with
    | mounted =>
      simp only [mount]
      split <;> rfl
    | step sys e _ ih => exact dispatch_keeps_fen sys e ih
  refine ⟨hinv, fun hround => ?_⟩
  rw [hinv, hround]

/-- Witness for C10: the component after Start Game and 1.Nf3. -/
theorem fen_is_encoding_of_game_witness :
    Reachable chessFragment afterKnightMove ∧
      afterKnightMove.st.fen = chessFragment.fen afterKnightMove.st.game ∧
      chessFragment.turn afterKnightMove.st.game =
        chessFragment.turn (chessFragment.load afterKnightMove.st.fen) :=
  ⟨reachable_run _ _ Reachable.mounted,
    (fen_is_encoding_of_game afterKnightMove (reachable_run _ _ Reachable.mounted)).1,
    (fen_is_encoding_of_game afterKnightMove (reachable_run _ _ Reachable.mounted)).2
      (fun _ => rfl)⟩

/-! ## Difficulty and rating -/

/-- What the effects do to the rating cells: `difficulty` is what the handler
left, and `elo` is rewritten from the table exactly when `difficulty`
changed. -/
theorem commit_rating {E : RulesEngine} (sys : Sys E) (o : Outcome E) :
    (commit sys o).st.difficulty = o.st.difficulty ∧
      (o.st.difficulty = sys.st.difficulty → (commit sys o).st.elo = o.st.elo) ∧
      (o.st.difficulty ≠ sys.st.difficulty →
        (commit sys o).st.elo = difficultyLookup o.st.difficulty) := by
  simp only [commit]
  split_ifs <;> (try split) <;> simp_all

/-- The handler `onDrop` writes neither `difficulty` nor `elo`. -/
theorem onDrop_keeps_rating {E : RulesEngine} (s : State E) (a b : String) :
    (onDrop s a b).st.difficulty = s.difficulty ∧ (onDrop s a b).st.elo = s.elo := by
  unfold onDrop
  split
  · exact ⟨rfl, rfl⟩
  · dsimp only
    split <;> exact ⟨rfl, rfl⟩

/-- The continuation of `getBotMove` writes neither `difficulty` nor `elo`. -/
theorem getBotMove_keeps_rating {E : RulesEngine} (s : State E) (call : BotCall)
    (r : Response) :
    (getBotMove s call r).st.difficulty = s.difficulty ∧ (getBotMove s call r).st.elo = s.elo := by
  unfold getBotMove
  split
  · exact ⟨rfl, rfl⟩
  · exact ⟨rfl, rfl⟩
  · split_ifs
    · dsimp only
      split <;> exact ⟨rfl, rfl⟩
    · exact ⟨rfl, rfl⟩
    · exact ⟨rfl, rfl⟩

/-- Only a difficulty button and the slider change the rating. -/
theorem dispatch_keeps_rating {E : RulesEngine} (sys : Sys E) (e : Event)
    (he : e.changesRating = false) :
    (dispatch sys e).st.difficulty = sys.st.difficulty ∧
      (dispatch sys e).st.elo = sys.st.elo := by
  cases e with
  | setDifficulty label => simp [Event.changesRating] at he
  | setElo value => simp [Event.changesRating] at he
  | setPlayerColor c =>
    simp only [dispatch]
    split_ifs
    · exact ⟨rfl, rfl⟩
    · exact ⟨(commit_rating _ _).1, (commit_rating _ _).2.1 rfl⟩
  | startGame =>
    simp only [dispatch]
    exact ⟨(commit_rating _ _).1, (commit_rating _ _).2.1 rfl⟩
  | drop a b =>
    simp only [dispatch]
    have hk := onDrop_keeps_rating sys.st a b
    exact ⟨(commit_rating _ _).1.trans hk.1, ((commit_rating _ _).2.1 hk.1).trans hk.2⟩
  | dropTimerFires i =>
    simp only [dispatch]
    split <;> exact ⟨rfl, rfl⟩
  | effectTimerFires =>
    simp only [dispatch]
    split <;> exact ⟨rfl, rfl⟩
  | resolve i r =>
    simp only [dispatch]
    split
    · rename_i c _
      have hk := getBotMove_keeps_rating sys.st c r
      exact ⟨(commit_rating _ _).1.trans hk.1, ((commit_rating _ _).2.1 hk.1).trans hk.2⟩
    · exact ⟨rfl, rfl⟩

/-- Events other than a difficulty button and the slider keep the rating. -/
theorem run_keeps_rating {E : RulesEngine} (es : List Event)
    (hes : ∀ e ∈ es, e.changesRating = false) :
    ∀ sys : Sys E, (run sys es).st.elo = sys.st.elo := by
  induction es with
  | nil => intro sys; rfl
  | cons e es ih =>
    intro sys
    have hrun : run sys (e :: es) = run (dispatch sys e) es := rfl
    rw [hrun, ih (fun x hx => hes x (List.mem_cons_of_mem e hx)) (dispatch sys e)]
    exact (dispatch_keeps_rating sys e (hes e (List.mem_cons_self e es))).2

/-- Start Game leaves the rating as it is. -/
theorem startGame_keeps_elo {E : RulesEngine} (sys : Sys E) :
    (dispatch sys .startGame).st.elo = sys.st.elo :=
  (dispatch_keeps_rating sys .startGame rfl).2

/-- The timeout set by Start Game, if any, is the one of the bot-turn effect
on the new state. -/
theorem startGame_timer {E : RulesEngine} (sys : Sys E) :
    (dispatch sys .startGame).effectTimer = botTurnEffect (dispatch sys .startGame).st := by
  show (commit sys (handleStartGame sys.st)).effectTimer =
    botTurnEffect (commit sys (handleStartGame sys.st)).st
  simp [commit, handleStartGame]

/-- Every request scheduled by `onDrop` carries the rating of the state. -/
theorem onDrop_timeouts_elo {E : RulesEngine} (s : State E) (a b : String) (c : BotCall)
    (hc : c ∈ (onDrop s a b).timeouts) : c.currentElo = s.elo := by
  unfold onDrop at hc
  split at hc
  · simp at hc
  · dsimp only at hc
    split at hc
    · simp at hc
    · split_ifs at hc
      · simp at hc
        rw [hc]
      · simp at hc

/-- Every request scheduled by the bot-turn effect carries the rating of the
state. -/
theorem botTurnEffect_elo {E : RulesEngine} (s : State E) (c : BotCall)
    (hc : botTurnEffect s = some c) : c.currentElo = s.elo := by
  unfold botTurnEffect at hc
  split_ifs at hc
  simp at hc
  rw [← hc]

/-- Every label that has a button has a table entry, and the entry lies
within the range of the slider. -/
theorem difficultyLookup_key (label : String)
    (hkey : (difficultyLevels.map Prod.fst).contains label = true) :
    ∃ v : Int, difficultyLookup label = some v ∧ sliderMin ≤ v ∧ v ≤ sliderMax := by
  have hmem : label ∈ ["easy", "medium", "hard", "expert"] := by
    simpa [difficultyLevels] using hkey
  simp only [List.mem_cons, List.mem_singleton, List.not_mem_nil, or_false] at hmem
  rcases hmem with h | h | h | h <;> subst h
  · exact ⟨800, by decide, by decide, by decide⟩
  · exact ⟨1200, by decide, by decide, by decide⟩
  · exact ⟨1700, by decide, by decide, by decide⟩
  · exact ⟨2200, by decide, by decide, by decide⟩

/-- A difficulty button other than the selected one, pressed before the game
is started, changes `difficulty`, and the difficulty effect then stores the
table entry of the new label in `elo`. -/
theorem setDifficulty_elo {E : RulesEngine} (sys : Sys E) (label : String)
    (hkey : (difficultyLevels.map Prod.fst).contains label = true)
    (hidle : sys.st.gameStarted = false) (hnew : label ≠ sys.st.difficulty) :
    (dispatch sys (.setDifficulty label)).st.difficulty = label ∧
      (dispatch sys (.setDifficulty label)).st.elo = difficultyLookup label := by
  have hcond :
      (sys.st.gameStarted || !(difficultyLevels.map Prod.fst).contains label) = false := by
    rw [hidle, hkey]
    rfl
  have hd : dispatch sys (.setDifficulty label) =
      commit sys
        { ret := .finished, st := { sys.st with difficulty := label }
          gameSet := false, timeouts := [] } := by
    simp only [dispatch, hcond, Bool.false_eq_true, if_false]
  rw [hd]
  exact ⟨(commit_rating _ _).1, (commit_rating _ _).2.2 hnew⟩

/-- The button of the difficulty that is already selected changes nothing:
no cell changes, so no effect runs. -/
theorem setDifficulty_same {E : RulesEngine} (sys : Sys E) (label : String)
    (hsame : label = sys.st.difficulty) : dispatch sys (.setDifficulty label) = sys := by
  subst hsame
  simp only [dispatch]
  split_ifs
  · rfl
  · exact commit_unchanged sys Completion.finished

/-- The slider, moved before the game is started, stores the value it
supplies in `elo`, and no effect resets it. -/
theorem setElo_elo {E : RulesEngine} (sys : Sys E) (value : Int)
    (hidle : sys.st.gameStarted = false)
    (hmin : sliderMin ≤ value) (hmax : value ≤ sliderMax) :
    (dispatch sys (.setElo value)).st.elo = some value := by
  have hcond : (sys.st.gameStarted || decide (value < sliderMin) ||
      decide (sliderMax < value)) = false := by
    simp [hidle, hmin, hmax]
  have hd : dispatch sys (.setElo value) =
      commit sys
        { ret := .finished, st := { sys.st with elo := some value }
          gameSet := false, timeouts := [] } := by
    simp only [dispatch, hcond, Bool.false_eq_true, if_false]
  rw [hd]
  exact (commit_rating _ _).2.1 rfl

/-- A rating within the range of the slider stays within it under every
event. -/
theorem dispatch_rating_in_range {E : RulesEngine} (sys : Sys E) (e : Event)
    (h : ∃ v : Int, sys.st.elo = some v ∧ sliderMin ≤ v ∧ v ≤ sliderMax) :
    ∃ v : Int, (dispatch sys e).st.elo = some v ∧ sliderMin ≤ v ∧ v ≤ sliderMax := by
  by_cases he : e.changesRating = false
  · rw [(dispatch_keeps_rating sys e he).2]
    exact h
  · cases e with
    | setDifficulty label =>
      by_cases hc : (sys.st.gameStarted || !(difficultyLevels.map Prod.fst).contains label) = true
      · have hd : dispatch sys (.setDifficulty label) = sys := by
          simp only [dispatch, hc, if_true]
        rw [hd]
        exact h
      · by_cases hsame : label = sys.st.difficulty
        · rw [setDifficulty_same sys label hsame]
          exact h
        · simp only [Bool.or_eq_true, Bool.not_eq_true', not_or, Bool.not_eq_true,
            Bool.not_eq_false] at hc
          rw [(setDifficulty_elo sys label hc.2 hc.1 hsame).2]
          exact difficultyLookup_key label hc.2
    | setElo value =>
      by_cases hc : (sys.st.gameStarted || decide (value < sliderMin) ||
          decide (sliderMax < value)) = true
      · have hd : dispatch sys (.setElo value) = sys := by
          simp only [dispatch, hc, if_true]
        rw [hd]
        exact h
      · simp only [Bool.or_eq_true, decide_eq_true_eq, not_or, Bool.not_eq_true, not_lt] at hc
        exact ⟨value, setElo_elo sys value hc.1.1 hc.1.2 hc.2, hc.1.2, hc.2⟩
    | setPlayerColor c => exact absurd rfl he
    | startGame => exact absurd rfl he
    | drop a b => exact absurd rfl he
    | dropTimerFires i => exact absurd rfl he
    | effectTimerFires => exact absurd rfl he
    | resolve i r => exact absurd rfl he

/-- A rating within the range of the slider stays within it under every
sequence of events. -/
theorem run_rating_in_range {E : RulesEngine} (es : List Event) :
    ∀ sys : Sys E, (∃ v : Int, sys.st.elo = some v ∧ sliderMin ≤ v ∧ v ≤ sliderMax) →
      ∃ v : Int, (run sys es).st.elo = some v ∧ sliderMin ≤ v ∧ v ≤ sliderMax := by
  induction es with
  | nil => intro sys h; exact h
  | cons e es ih => intro sys h; exact ih (dispatch sys e) (dispatch_rating_in_range sys e h)

/-- In every reachable state the rating is a number within the range of the
slider. -/
theorem reachable_rating_in_range {E : RulesEngine} (sys : Sys E) (h : Reachable E sys) :
    ∃ v : Int, sys.st.elo = some v ∧ sliderMin ≤ v ∧ v ≤ sliderMax := by
  induction h with
  | mounted =>
    refine ⟨1200, ?_, by decide, by decide⟩
    simp only [mount]
    split <;> rfl
  | step sys e _ ih => exact dispatch_rating_in_range sys e ih

/-- C11 as stated is false in its last part: the slider was dragged to 2500
while "medium" stayed the selected difficulty, and the game is not started.
Pressing the Medium button passes the label that is already in `difficulty`,
so the difficulty effect (dependency `difficulty`) does not run: the rating
stays 2500 instead of the table entry 1200, and the request after Start Game
and 1.Nf3 carries 2500. -/
theorem reselected_label_keeps_slider_rating :
    sliderOverride.st.gameStarted = false ∧
      sliderOverride.st.difficulty = "medium" ∧
      difficultyLookup "medium" = some 1200 ∧
      (dispatch sliderOverride (.setDifficulty "medium")).st.elo = some 2500 ∧
      (dispatch sliderOverride (.setDifficulty "medium")).st.elo ≠ difficultyLookup "medium" ∧
      (run sliderOverride [.setDifficulty "medium", .startGame, .drop "g1" "f3"]).dropTimers =
        [{ currentFen := "rnbqkbnr/pppppppp/8/8/8/5N2/PPPPPPPP/RNBQKB1R b KQkq - 1 1"
           currentElo := some 2500 }] := by
  decide

/-- C11 amended: for every label of the fixed set (easy, medium, hard, expert)
the lookup is defined and its value lies within 100 to 3000, medium being
1200. Before the game is started, the button of a label other than the
selected one stores that value as the rating, and through every later
sequence of events without another button press or slider move the rating
stays that value and every request scheduled by `onDrop` or by the bot-turn
effect carries it. The button of the label that is already selected changes
nothing at all, so a rating set with the slider stays in force. -/
theorem difficulty_selection_sets_rating {E : RulesEngine} (sys : Sys E) (label : String)
    (hlabel : label ∈ ["easy", "medium", "hard", "expert"])
    (hidle : sys.st.gameStarted = false) :
    ∃ v : Int, difficultyLookup label = some v ∧ 100 ≤ v ∧ v ≤ 3000 ∧
      difficultyLookup "medium" = some 1200 ∧
      (label ≠ sys.st.difficulty →
        (dispatch sys (.setDifficulty label)).st.difficulty = label ∧
          (dispatch sys (.setDifficulty label)).st.elo = some v ∧
          ∀ es : List Event, (∀ e ∈ es, e.changesRating = false) →
            (run (dispatch sys (.setDifficulty label)) es).st.elo = some v ∧
              (∀ a b c,
                c ∈ (onDrop (run (dispatch sys (.setDifficulty label)) es).st a b).timeouts →
                  c.currentElo = some v) ∧
              (∀ c, botTurnEffect (run (dispatch sys (.setDifficulty label)) es).st = some c →
                c.currentElo = some v)) ∧
      (label = sys.st.difficulty → dispatch sys (.setDifficulty label) = sys) := by
  have hkey : (difficultyLevels.map Prod.fst).contains label = true := by
    simp only [List.mem_cons, List.mem_singleton, List.not_mem_nil, or_false] at hlabel
    rcases hlabel with h | h | h | h <;> subst h <;> decide
  obtain ⟨v, hv, hlo, hhi⟩ := difficultyLookup_key label hkey
  refine ⟨v, hv, hlo, hhi, by decide, ?_, setDifficulty_same sys label⟩
  intro hnew
  obtain ⟨hdiff, helo⟩ := setDifficulty_elo sys label hkey hidle hnew
  refine ⟨hdiff, by rw [helo, hv], ?_⟩
  intro es hes
  have hlater : (run (dispatch sys (.setDifficulty label)) es).st.elo = some v := by
    rw [run_keeps_rating es hes, helo, hv]
  refine ⟨hlater, ?_, ?_⟩
  · intro a b c hc
    rw [onDrop_timeouts_elo _ a b c hc, hlater]
  · intro c hc
    rw [botTurnEffect_elo _ c hc, hlater]

/-- Witness for C11 amended: on the freshly mounted component, where "medium"
is selected, the Hard button is pressed; the rating is a table value within
100 to 3000 and is still the rating after Start Game and 1.Nf3. -/
theorem difficulty_selection_sets_rating_witness :
    "hard" ∈ ["easy", "medium", "hard", "expert"] ∧
      (mount chessFragment).st.gameStarted = false ∧
      "hard" ≠ (mount chessFragment).st.difficulty ∧
      (dispatch (mount chessFragment) (.setDifficulty "hard")).st.elo = some 1700 ∧
      (∃ v : Int, difficultyLookup "hard" = some v ∧ 100 ≤ v ∧ v ≤ 3000 ∧
        (dispatch (mount chessFragment) (.setDifficulty "hard")).st.elo = some v ∧
        (run (dispatch (mount chessFragment) (.setDifficulty "hard"))
          [.startGame, .drop "g1" "f3"]).st.elo = some v) :=
  ⟨by decide, by decide, by decide, by decide,
    match difficulty_selection_sets_rating (mount chessFragment) "hard" (by decide)
        (by decide) with
    | ⟨v, hv, hlo, hhi, _, hnew, _⟩ =>
      ⟨v, hv, hlo, hhi, (hnew (by decide)).2.1,
        ((hnew (by decide)).2.2 [.startGame, .drop "g1" "f3"] (by decide)).1⟩⟩

/-- The specification's clamp returns its argument exactly on the range of
the slider. -/
theorem clampToSupportedRange_eq_self (value : Int) :
    clampToSupportedRange value = value ↔ sliderMin ≤ value ∧ value ≤ sliderMax := by
  unfold clampToSupportedRange sliderMin sliderMax
  split_ifs <;> omega

/-- C12: for every value the rating slider supplies (a value from its `min`
100 to its `max` 3000, the slider being enabled, that is the game not
started) the rating the controller stores is that value clamped to the
supported range; it equals the supplied value, it lies within 100 to 3000,
and it stays within 100 to 3000 through every later sequence of events. -/
theorem slider_value_stored_clamped {E : RulesEngine} (sys : Sys E) (value : Int)
    (hidle : sys.st.gameStarted = false)
    (hmin : sliderMin ≤ value) (hmax : value ≤ sliderMax) :
    (dispatch sys (.setElo value)).st.elo = some (clampToSupportedRange value) ∧
      (dispatch sys (.setElo value)).st.elo = some value ∧
      (∃ v : Int, (dispatch sys (.setElo value)).st.elo = some v ∧ 100 ≤ v ∧ v ≤ 3000) ∧
      (∀ es : List Event,
        ∃ v : Int, (run (dispatch sys (.setElo value)) es).st.elo = some v ∧
          100 ≤ v ∧ v ≤ 3000) := by
  have hstored := setElo_elo sys value hidle hmin hmax
  have hclamp := (clampToSupportedRange_eq_self value).mpr ⟨hmin, hmax⟩
  have hrange : ∃ v : Int, (dispatch sys (.setElo value)).st.elo = some v ∧
      sliderMin ≤ v ∧ v ≤ sliderMax := ⟨value, hstored, hmin, hmax⟩
  refine ⟨by rw [hstored, hclamp], hstored, hrange, ?_⟩
  intro es
  exact run_rating_in_range es _ hrange

/-- Witness for C12: the slider of the freshly mounted component is dragged
to 2500. -/
theorem slider_value_stored_clamped_witness :
    (mount chessFragment).st.gameStarted = false ∧
      sliderMin ≤ (2500 : Int) ∧ (2500 : Int) ≤ sliderMax ∧
      (dispatch (mount chessFragment) (.setElo 2500)).st.elo =
        some (clampToSupportedRange 2500) ∧
      (dispatch (mount chessFragment) (.setElo 2500)).st.elo = some 2500 :=
  ⟨by decide, by decide, by decide,
    (slider_value_stored_clamped (mount chessFragment) 2500 (by decide) (by decide)
      (by decide)).1,
    (slider_value_stored_clamped (mount chessFragment) 2500 (by decide) (by decide)
      (by decide)).2.1⟩

end PlayBot
